import Mathlib

/-!
Verification of the id-photo-ocr-uploader backend against its specification.

The development shallowly embeds the TypeScript backend:
* `saveController` (save / getAll / search / getById) from
  `backend/src/controllers/saveController.ts`,
* the Mongoose `IDData` schema (setters, validators, pre-save hook, search
  helper) from `backend/src/models/IDData.ts`,
* `uploadController.uploadAndExtract` and the multer upload middleware from
  `backend/src/controllers/uploadController.ts` and
  `backend/src/middleware/upload.ts`,
* `AnthropicService` (media-type dispatch, JSON extraction from the model
  reply, field normalization, upstream error mapping) from
  `backend/src/services/anthropicService.ts`,
* `HeicConversionService` from `backend/src/services/heicConversionService.ts`,
* `errorHandler` / `createError` from `backend/src/middleware/errorHandler.ts`.

Strings are modelled through their character lists; the few JavaScript string
operations the code uses (trim, toLowerCase, toUpperCase, split, regexes over
ASCII data) are embedded as executable functions on `List Char` so that every
definition evaluates inside the kernel.  MongoDB is modelled as an in-memory
list of stored documents; Mongoose document semantics that the code relies on
(setters run on assignment, validators at save, every path set on a new
document counting as modified for `isModified`) are embedded explicitly and
noted where they matter.
-/

namespace IdOcr

/-! ## JavaScript string primitives, embedded on character lists -/

/-- Embedding of `String.prototype.trim` (ASCII whitespace suffices for the
data handled by this backend). -/
def jsTrim (s : String) : String :=
  String.mk (((s.data.dropWhile Char.isWhitespace).reverse.dropWhile
    Char.isWhitespace).reverse)

/-- Embedding of `String.prototype.toLowerCase` for ASCII data. -/
def jsToLower (s : String) : String := String.mk (s.data.map Char.toLower)

/-- Embedding of `String.prototype.toUpperCase` for ASCII data. -/
def jsToUpper (s : String) : String := String.mk (s.data.map Char.toUpper)

/-- Embedding of `String.prototype.includes` (used by the error handler's
`err.message.includes('Anthropic')` check). -/
def jsIncludes (s sub : String) : Bool := decide (sub.data <:+: s.data)

/-- Embedding of `String.prototype.startsWith` for a one-character prefix
(used by the sex normalization `value.toLowerCase().startsWith('m')`). -/
def jsStartsWith (s pre : String) : Bool := pre.data.isPrefixOf s.data

/-- Characters on which `String.prototype.split` splits, for a one-character
separator: split a character list at every occurrence of `sep`. -/
def splitOnChar (sep : Char) : List Char → List (List Char)
  | [] => [[]]
  | c :: cs =>
    let rest := splitOnChar sep cs
    if c = sep then [] :: rest
    else match rest with
      | [] => [[c]]
      | r :: rs => (c :: r) :: rs

/-- Embedding of `imagePath.split('.')` followed by `.pop()`: the final
dot-separated segment of the string (`.pop()` of a `split` result is always
defined since `split` returns a non-empty array). -/
def lastDotSegment (s : String) : String :=
  String.mk ((splitOnChar '.' s.data).getLastD [])

/-- Index of the first occurrence of a character in a character list. -/
def firstIdxOf (c : Char) : List Char → Option Nat
  | [] => none
  | x :: xs => if x = c then some 0 else (firstIdxOf c xs).map Nat.succ

/-- Index of the last occurrence of a character in a character list. -/
def lastIdxOf (c : Char) : List Char → Option Nat
  | [] => none
  | x :: xs =>
    match lastIdxOf c xs with
    | some j => some (j + 1)
    | none => if x = c then some 0 else none

/-! ## Data model: the `IDData` document -/

/-- Request body accepted by `POST /api/id/save`, i.e. the fields of the zod
`idDataSchema` in `saveController.ts`.  The optional `confidence` number is
modelled as a rational (the zod check only compares it with 0 and 1). -/
structure SaveInput where
  id : Option String := none
  lastName : String
  firstName : String
  middleInitial : Option String := none
  addressStreet : Option String := none
  addressCity : Option String := none
  addressState : Option String := none
  addressZip : Option String := none
  sex : Option String := none
  dob : Option String := none
  confidence : Option Rat := none
  sourceFileName : Option String := none
deriving DecidableEq

/-- The eleven identity fields echoed back by the save / getAll / search /
getById responses under `extractedData`. -/
structure IdentityFields where
  id : Option String
  lastName : String
  firstName : String
  middleInitial : Option String
  addressStreet : Option String
  addressCity : Option String
  addressState : Option String
  addressZip : Option String
  sex : Option String
  dob : Option String
  confidence : Option Rat
deriving DecidableEq

/-- Projection of a field bundle to the identity fields reported in
`extractedData` (dropping the `sourceFileName` metadata field). -/
def fieldsOf (d : SaveInput) : IdentityFields :=
  { id := d.id, lastName := d.lastName, firstName := d.firstName,
    middleInitial := d.middleInitial, addressStreet := d.addressStreet,
    addressCity := d.addressCity, addressState := d.addressState,
    addressZip := d.addressZip, sex := d.sex, dob := d.dob,
    confidence := d.confidence }

/-! ## zod validation (`idDataSchema.safeParse` in `saveController.ts`) -/

/-- Optional string length cap, as in `z.string().max(n).optional()`. -/
def optLenLe (o : Option String) (n : Nat) : Bool :=
  match o with
  | none => true
  | some s => s.length ≤ n

/-- The zod `idDataSchema` checks of `saveController.ts` lines 7-20: required
non-empty names with length caps, optional capped strings, the four-value sex
enum, and `confidence` within `[0, 1]`. -/
def zodValid (d : SaveInput) : Bool :=
  (match d.id with | none => true | some _ => true) &&
  1 ≤ d.lastName.length && d.lastName.length ≤ 100 &&
  1 ≤ d.firstName.length && d.firstName.length ≤ 100 &&
  optLenLe d.middleInitial 1 &&
  optLenLe d.addressStreet 200 &&
  optLenLe d.addressCity 100 &&
  optLenLe d.addressState 50 &&
  optLenLe d.addressZip 20 &&
  (match d.sex with
   | none => true
   | some s => ["M", "F", "Male", "Female"].contains s) &&
  (match d.confidence with
   | none => true
   | some c => decide ((0 : Rat) ≤ c) && decide (c ≤ (1 : Rat))) &&
  optLenLe d.sourceFileName 255

/-! ## Mongoose schema behaviour (`IDData.ts`) -/

/-- Mongoose setters of `IDDataSchema`: every string path has `trim: true`,
and `middleInitial` and `sex` additionally have `uppercase: true`.  Setters
run on assignment, before validation. -/
def applySetters (d : SaveInput) : SaveInput :=
  { d with
    id := d.id.map jsTrim,
    lastName := jsTrim d.lastName,
    firstName := jsTrim d.firstName,
    middleInitial := d.middleInitial.map fun s => jsToUpper (jsTrim s),
    addressStreet := d.addressStreet.map jsTrim,
    addressCity := d.addressCity.map jsTrim,
    addressState := d.addressState.map jsTrim,
    addressZip := d.addressZip.map jsTrim,
    sex := d.sex.map fun s => jsToUpper (jsTrim s),
    dob := d.dob.map jsTrim,
    sourceFileName := d.sourceFileName.map jsTrim }

/-- The character class `[A-Z]`. -/
def isUpperAZ (c : Char) : Bool := 'A' ≤ c && c ≤ 'Z'

/-- The `middleInitial` validator `!v || /^[A-Z]$/.test(v)`. -/
def middleInitialValid (s : String) : Bool :=
  s = "" || (match s.data with
    | [c] => isUpperAZ c
    | _ => false)

/-- The ZIP regex `/^\d{5}(-\d{4})?$/` on a character list. -/
def zipPattern (cs : List Char) : Bool :=
  match cs with
  | [a, b, c, d, e] => [a, b, c, d, e].all Char.isDigit
  | [a, b, c, d, e, '-', f, g, h, i] =>
    [a, b, c, d, e, f, g, h, i].all Char.isDigit
  | _ => false

/-- The `addressZip` validator `!v || /^\d{5}(-\d{4})?$/.test(v)`. -/
def zipValid (s : String) : Bool := s = "" || zipPattern s.data

/-- The date regex `/^(\d{4}-\d{2}-\d{2}|\d{2}\/\d{2}\/\d{4})$/`. -/
def dobPattern (cs : List Char) : Bool :=
  match cs with
  | [a, b, c, d, '-', e, f, '-', g, h] =>
    [a, b, c, d, e, f, g, h].all Char.isDigit
  | [a, b, '/', c, d, '/', e, f, g, h] =>
    [a, b, c, d, e, f, g, h].all Char.isDigit
  | _ => false

/-- The `dob` validator: empty values pass, otherwise the date regex. -/
def dobValid (s : String) : Bool := s = "" || dobPattern s.data

/-- Mongoose validation at save time: `required` on the names (a required
string fails when empty), `maxlength` caps, the `middleInitial`, `addressZip`
and `dob` validators, the `sex` enum, and the `confidence` min/max. -/
def mongooseValid (d : SaveInput) : Bool :=
  optLenLe d.id 50 &&
  d.lastName ≠ "" && d.lastName.length ≤ 100 &&
  d.firstName ≠ "" && d.firstName.length ≤ 100 &&
  (match d.middleInitial with
   | none => true
   | some s => s.length ≤ 1 && middleInitialValid s) &&
  optLenLe d.addressStreet 200 &&
  optLenLe d.addressCity 100 &&
  optLenLe d.addressState 50 &&
  (match d.addressZip with
   | none => true
   | some s => s.length ≤ 20 && zipValid s) &&
  (match d.sex with
   | none => true
   | some s => ["M", "F", "Male", "Female"].contains s) &&
  (match d.dob with
   | none => true
   | some s => dobValid s) &&
  (match d.confidence with
   | none => true
   | some c => decide ((0 : Rat) ≤ c) && decide (c ≤ (1 : Rat))) &&
  optLenLe d.sourceFileName 255

/-- An in-flight Mongoose document: the sanitized field values, the
server-assigned metadata, and the set of modified paths.  Mongoose counts
every path that was set on a new document as modified, so constructing
`new IDData({...})` marks each provided field. -/
structure IDDoc where
  fields : SaveInput
  extractedAt : Nat
  lastModified : Nat
  isManuallyEdited : Bool
  modifiedPaths : List String
deriving DecidableEq

/-- Paths set when the save controller constructs
`new IDData({...data, extractedAt, lastModified, isManuallyEdited})`. -/
def setPaths (d : SaveInput) : List String :=
  (if d.id.isSome then ["id"] else []) ++
  ["lastName", "firstName"] ++
  (if d.middleInitial.isSome then ["middleInitial"] else []) ++
  (if d.addressStreet.isSome then ["addressStreet"] else []) ++
  (if d.addressCity.isSome then ["addressCity"] else []) ++
  (if d.addressState.isSome then ["addressState"] else []) ++
  (if d.addressZip.isSome then ["addressZip"] else []) ++
  (if d.sex.isSome then ["sex"] else []) ++
  (if d.dob.isSome then ["dob"] else []) ++
  (if d.confidence.isSome then ["confidence"] else []) ++
  (if d.sourceFileName.isSome then ["sourceFileName"] else []) ++
  ["extractedAt", "lastModified", "isManuallyEdited"]

/-- Document construction in `saveController.saveData`: spread the validated
body, set both timestamps to now and `isManuallyEdited` to `false`; Mongoose
setters run on assignment and all set paths count as modified. -/
def newIDData (d : SaveInput) (now : Nat) : IDDoc :=
  { fields := applySetters d, extractedAt := now, lastModified := now,
    isManuallyEdited := false, modifiedPaths := setPaths d }

/-- The `IDDataSchema.pre('save')` hook: refresh `lastModified` and flip
`isManuallyEdited` to `true` when `lastName`, `firstName`, `id` or
`addressStreet` is modified. -/
def preSaveHook (doc : IDDoc) (now : Nat) : IDDoc :=
  { doc with
    lastModified := now,
    isManuallyEdited :=
      if doc.modifiedPaths.contains "lastName" ||
         doc.modifiedPaths.contains "firstName" ||
         doc.modifiedPaths.contains "id" ||
         doc.modifiedPaths.contains "addressStreet"
      then true else doc.isManuallyEdited }

/-- A persisted `IDData` document: the MongoDB `_id` plus the saved fields
and metadata. -/
structure StoredRecord where
  oid : String
  fields : SaveInput
  extractedAt : Nat
  lastModified : Nat
  isManuallyEdited : Bool
deriving DecidableEq

/-- Errors produced by `createError(message, statusCode)` in
`errorHandler.ts`; `name` is the JavaScript `Error.name`, always `"Error"`
for `createError`. -/
structure ApiError where
  statusCode : Nat
  message : String
  name : String := "Error"
  status : String := "error"
deriving DecidableEq

/-- Embedding of `createError`: records the message and status code and tags
`status` with `'fail'` for 4xx codes and `'error'` otherwise. -/
def createError (message : String) (statusCode : Nat) : ApiError :=
  { statusCode := statusCode, message := message, name := "Error",
    status := if 400 ≤ statusCode && statusCode ≤ 499 then "fail" else "error" }

/-- Embedding of `saveController.saveData` over an in-memory database: zod
validation (400 on failure), document construction, the pre-save hook,
Mongoose validation (caught as a 400 `Database validation error`; the schema
declares no unique index, so the 11000 duplicate-key branch is unreachable),
then persistence.  Returns the stored document - whose fields are exactly the
ones echoed in the 201 response body - together with the new database.  The
fresh `_id` and the current time are passed in explicitly. -/
def saveData (db : List StoredRecord) (body : SaveInput) (oid : String)
    (now : Nat) : Except ApiError (StoredRecord × List StoredRecord) :=
  if zodValid body then
    let doc := preSaveHook (newIDData body now) now
    if mongooseValid doc.fields then
      let stored : StoredRecord :=
        { oid := oid, fields := doc.fields, extractedAt := doc.extractedAt,
          lastModified := doc.lastModified,
          isManuallyEdited := doc.isManuallyEdited }
      .ok (stored, db ++ [stored])
    else .error (createError "Database validation error" 400)
  else .error (createError "Validation Error" 400)

/-- The 24-hex-character check `/^[0-9a-fA-F]{24}$/` of `getDataById`. -/
def isHexChar (c : Char) : Bool :=
  c.isDigit || ('a' ≤ c && c ≤ 'f') || ('A' ≤ c && c ≤ 'F')

/-- Guard `id.match(/^[0-9a-fA-F]{24}$/)` on the `:id` route parameter. -/
def isHex24 (s : String) : Bool :=
  s.data.length = 24 && s.data.all isHexChar

/-- Embedding of `saveController.getDataById`: 400 on a malformed id, then
`findById`, 404 when absent, otherwise the stored document (whose fields are
exactly the ones echoed in the 200 response body). -/
def getDataById (db : List StoredRecord) (id : String) :
    Except ApiError StoredRecord :=
  if isHex24 id then
    match db.find? (fun r => r.oid == id) with
    | some r => .ok r
    | none => .error (createError "ID data not found" 404)
  else .error (createError "Invalid ID format" 400)

/-- Save a body and immediately fetch it back through `getDataById` by the
returned id, yielding the `extractedData` identity fields of the fetch
response (`none` when either endpoint errors). -/
def roundTrip (db : List StoredRecord) (body : SaveInput) (oid : String)
    (now : Nat) : Option IdentityFields :=
  match saveData db body oid now with
  | .ok (r, db2) =>
    match getDataById db2 r.oid with
    | .ok r2 => some (fieldsOf r2.fields)
    | .error _ => none
  | .error _ => none

/-! ## Pagination (`saveController.getAllData`) -/

/-- JavaScript `parseInt(x) || d`: a missing or unparsable query value
(`NaN`, modelled as `none`) and `0` both fall back to the default. -/
def jsOrInt (v : Option Int) (d : Int) : Int :=
  match v with
  | none => d
  | some n => if n = 0 then d else n

/-- The `.sort({ extractedAt: -1 })` query modifier: records ordered by
extraction time descending (embedded with a structural insertion sort; only
the ordering relation and the underlying multiset matter). -/
def sortByExtractedAtDesc (db : List StoredRecord) : List StoredRecord :=
  List.insertionSort (fun a b => a.extractedAt ≥ b.extractedAt) db

/-- JavaScript `Math.ceil(total / limit)` over the exact rational quotient
(`limit` is never 0 here because `parseInt(..) || 10` cannot yield 0). -/
def jsCeilDiv (total limit : Int) : Int :=
  if limit = 0 then 0 else ⌈(total : Rat) / (limit : Rat)⌉

/-- The `pagination` object of the `getAllData` response. -/
structure PaginationInfo where
  currentPage : Int
  totalPages : Int
  totalRecords : Int
  hasMore : Bool
deriving DecidableEq

/-- Embedding of `saveController.getAllData`: defaulted `page`/`limit` query
parameters, `skip = (page-1)*limit`, the sorted page slice, and the
pagination metadata with `hasMore: page * limit < total`. -/
def getAllData (db : List StoredRecord) (pageQ limitQ : Option Int) :
    List StoredRecord × PaginationInfo :=
  let page := jsOrInt pageQ 1
  let limit := jsOrInt limitQ 10
  let skip := (page - 1) * limit
  let total : Int := db.length
  let items := ((sortByExtractedAtDesc db).drop skip.toNat).take limit.toNat
  (items,
   { currentPage := page, totalPages := jsCeilDiv total limit,
     totalRecords := total, hasMore := decide (page * limit < total) })

/-! ## Search (`saveController.searchData` and
`IDDataSchema.statics.findBySearchTerm`) -/

/-- Embedding of the MongoDB `{ $regex: term, $options: 'i' }` filter for a
metacharacter-free search term: the term occurs, case-insensitively, as a
contiguous substring of the field value. -/
def containsCI (pat s : String) : Bool :=
  decide ((jsToLower pat).data <:+: (jsToLower s).data)

/-- The `$or` filter of `findBySearchTerm` over the `id`, `lastName` and
`firstName` paths (a regex filter never matches a document whose optional
`id` path is absent). -/
def matchesSearchTerm (term : String) (r : StoredRecord) : Bool :=
  (match r.fields.id with
   | some v => containsCI term v
   | none => false) ||
  containsCI term r.fields.lastName ||
  containsCI term r.fields.firstName

/-- Embedding of `IDDataSchema.statics.findBySearchTerm`: the matching
records sorted by extraction time descending. -/
def findBySearchTerm (db : List StoredRecord) (term : String) :
    List StoredRecord :=
  sortByExtractedAtDesc (db.filter (matchesSearchTerm term))

/-- Embedding of `saveController.searchData`: 400 unless the query is present
and its trimmed form has at least 2 characters, otherwise the
`findBySearchTerm` results for the trimmed query. -/
def searchData (db : List StoredRecord) (q : Option String) :
    Except ApiError (List StoredRecord) :=
  match q with
  | none => .error (createError "Search term must be at least 2 characters long" 400)
  | some s =>
    if s = "" || (jsTrim s).length < 2 then
      .error (createError "Search term must be at least 2 characters long" 400)
    else .ok (findBySearchTerm db (jsTrim s))

/-! ## Upload handler and temporary files (`uploadController.ts`,
`heicConversionService.ts`) -/

/-- The uploaded file as multer presents it to the controller: the stored
path on disk and the client-supplied MIME type. -/
structure UploadedFile where
  path : String
  mimetype : String
deriving DecidableEq

/-- The JPEG path `path.join(parsedPath.dir, parsedPath.name + '.jpg')`
constructed by `convertHeicToJpeg`: the original path with its final
extension (a dot after the last slash that does not start the basename)
replaced by `.jpg`. -/
def jpegPathOf (p : String) : String :=
  let cs := p.data
  let baseStart := match lastIdxOf '/' cs with
    | some s => s + 1
    | none => 0
  let stem := match lastIdxOf '.' cs with
    | some i => if baseStart < i then cs.take i else cs
    | none => cs
  String.mk (stem ++ ('.' :: ['j', 'p', 'g']))

/-- Embedding of `HeicConversionService.convertHeicToJpeg` over a file-system
state (the list of files on disk): on success the JPEG is written and the
original HEIC file unlinked; when the underlying `heic-convert` call throws
(`convOk = false`) the file system is untouched and the error propagates. -/
def convertHeicToJpeg (fs : List String) (heicPath : String) (convOk : Bool) :
    Except Unit (String × List String) :=
  if convOk then
    let jp := jpegPathOf heicPath
    .ok (jp, jp :: fs.erase heicPath)
  else .error ()

/-- Embedding of `HeicConversionService.convertIfHeic`. -/
def convertIfHeic (fs : List String) (filePath mimeType : String)
    (convOk : Bool) : Except Unit (String × List String) :=
  if mimeType = "image/heic" then convertHeicToJpeg fs filePath convOk
  else .ok (filePath, fs)

/-- Embedding of `uploadController.uploadAndExtract`'s effect on the file
system: HEIC conversion when the MIME type is `image/heic`, then OCR
(`ocrOk` abstracts whether `extractTextFromImage` succeeds); on success the
controller unlinks `imagePath`, on any error the catch block unlinks
`req.file.path` when that path still exists.  Returns whether the request
succeeded together with the final file-system state. -/
def uploadAndExtract (fs : List String) (file : UploadedFile)
    (convOk ocrOk : Bool) : Bool × List String :=
  match convertIfHeic fs file.path file.mimetype convOk with
  | .error _ =>
    (false, if fs.contains file.path then fs.erase file.path else fs)
  | .ok (imagePath, fs1) =>
    if ocrOk then (true, fs1.erase imagePath)
    else (false, if fs1.contains file.path then fs1.erase file.path else fs1)

/-! ## OCR client (`anthropicService.ts`) -/

/-- Embedding of the greedy regex `content.text.match(/\{[\s\S]*\}/)`: the
leftmost-longest match runs from the first `\x7b` in the string to the last
`\x7d`, and exists precisely when some `\x7d` occurs after some `\x7b`. -/
def jsonMatch (s : String) : Option String :=
  match firstIdxOf '{' s.data, lastIdxOf '}' s.data with
  | some i, some j =>
    if i < j then some (String.mk ((s.data.drop i).take (j - i + 1)))
    else none
  | _, _ => none

/-- A content block of the model reply: the code only distinguishes
`type === 'text'` blocks from everything else. -/
inductive ContentBlock where
  | text (s : String)
  | other
deriving DecidableEq

/-- Embedding of the reply-parsing tail of
`AnthropicService.extractTextFromImage` (lines 84-101): reject a non-text
first block, extract the JSON object with the greedy regex, and parse it.
`JSON.parse` is abstracted by the `parseJson` argument (`none` models a
thrown `SyntaxError`). -/
def extractJsonFromReply {J : Type} (parseJson : String → Option J)
    (firstBlock : ContentBlock) : Except ApiError J :=
  match firstBlock with
  | .other => .error (createError "Invalid response format from OCR service" 500)
  | .text t =>
    match jsonMatch t with
    | none => .error (createError "Could not parse OCR response" 500)
    | some m =>
      match parseJson m with
      | none => .error (createError "Failed to parse OCR JSON response" 500)
      | some v => .ok v

/-- Embedding of `AnthropicService.getMediaType`: the lowercased final
dot-segment of the stored path (`imagePath.toLowerCase().split('.').pop()`)
dispatched over the four recognized extensions. -/
def getMediaType (imagePath : String) : Option String :=
  let ext := lastDotSegment (jsToLower imagePath)
  if ext = "jpg" || ext = "jpeg" then some "image/jpeg"
  else if ext = "png" then some "image/png"
  else if ext = "webp" then some "image/webp"
  else none

/-- The media-type guard at the top of `extractTextFromImage` (lines 53-57):
a `null` media type aborts with a 400 `Unsupported file format for OCR`
before any API call; otherwise the request proceeds with the media type. -/
def mediaTypeCheck (imagePath : String) : Except ApiError String :=
  match getMediaType imagePath with
  | none => .error (createError "Unsupported file format for OCR" 400)
  | some m => .ok m

/-- The catch block of `extractTextFromImage` (lines 106-118): upstream
status 401 becomes a 500 `Invalid Anthropic API key`, 429 and 500 become
503 domain errors, anything else is rethrown unchanged. -/
def mapUpstreamOcrError (upstreamStatus : Nat) (orig : ApiError) : ApiError :=
  if upstreamStatus = 401 then
    createError "Invalid Anthropic API key" 500
  else if upstreamStatus = 429 then
    createError "OCR service rate limit exceeded. Please try again later." 503
  else if upstreamStatus = 500 then
    createError "OCR service temporarily unavailable" 503
  else orig

/-! ## Express error handler (`errorHandler.ts`) -/

/-- Embedding of `errorHandler`: default the status code and message, apply
the `MulterError` and `ValidationError` rewrites, then override with 503
whenever the error message mentions `Anthropic`.  Returns the HTTP status
and message sent to the client. -/
def errorHandler (e : ApiError) : Nat × String :=
  let s0 := if e.statusCode = 0 then 500 else e.statusCode
  let m0 := if e.message = "" then "Internal Server Error" else e.message
  let r1 :=
    if e.name = "MulterError" then
      if jsIncludes e.message "File too large" then
        (413, "File too large. Maximum size is 10MB.")
      else if jsIncludes e.message "Unexpected field" then
        (400, "Invalid file field name.")
      else (400, "File upload error: " ++ e.message)
    else (s0, m0)
  let r2 := if e.name = "ValidationError" then (400, "Validation Error: " ++ e.message) else r1
  if jsIncludes e.message "Anthropic" then
    (503, "OCR service temporarily unavailable. Please try again later.")
  else r2

/-- Client-visible response for an upstream OCR failure: the error rethrown
by `extractTextFromImage`'s catch block propagates through `asyncHandler` to
`errorHandler`, which produces the final status and message. -/
def ocrFailureClientResponse (upstreamStatus : Nat) (orig : ApiError) :
    Nat × String :=
  errorHandler (mapUpstreamOcrError upstreamStatus orig)

/-! ## Upload middleware (`upload.ts`) -/

/-- The MIME allow-list of the multer `fileFilter`. -/
def allowedUploadTypes : List String :=
  ["image/jpeg", "image/jpg", "image/png", "application/pdf", "image/heic"]

/-- Embedding of `fileFilter`: accept exactly the allow-listed MIME types. -/
def fileFilterAccepts (mimetype : String) : Bool :=
  allowedUploadTypes.contains mimetype

/-- Embedding of Node's `path.extname`: the suffix of the basename from its
last dot (empty when the basename has no dot or starts with its only dot). -/
def extnameOf (n : String) : String :=
  let cs := n.data
  let baseStart := match lastIdxOf '/' cs with
    | some s => s + 1
    | none => 0
  match lastIdxOf '.' cs with
  | some i => if baseStart < i then String.mk (cs.drop i) else ""
  | none => ""

/-- The disk path multer stores an upload at: the uploads directory joined
with `id-<uniqueSuffix><ext>` where the extension is taken from the client's
original file name. -/
def multerStoredPath (dir originalname uniqueSuffix : String) : String :=
  dir ++ "/id-" ++ uniqueSuffix ++ extnameOf originalname

/-! ## OCR field normalization
(`AnthropicService.normalizeExtractedData`) -/

/-- The fixed `fieldMappings` dictionary (lines 142-170). -/
def fieldMappings (k : String) : Option String :=
  match k with
  | "id" => some "id"
  | "id_number" => some "id"
  | "identification" => some "id"
  | "license" => some "id"
  | "last_name" => some "lastName"
  | "surname" => some "lastName"
  | "family_name" => some "lastName"
  | "first_name" => some "firstName"
  | "given_name" => some "firstName"
  | "middle_initial" => some "middleInitial"
  | "middle_name" => some "middleInitial"
  | "address_street" => some "addressStreet"
  | "street" => some "addressStreet"
  | "address" => some "addressStreet"
  | "address_city" => some "addressCity"
  | "city" => some "addressCity"
  | "address_state" => some "addressState"
  | "state" => some "addressState"
  | "address_zip" => some "addressZip"
  | "zip" => some "addressZip"
  | "zipcode" => some "addressZip"
  | "postal_code" => some "addressZip"
  | "sex" => some "sex"
  | "gender" => some "sex"
  | "dob" => some "dob"
  | "date_of_birth" => some "dob"
  | "birth_date" => some "dob"
  | _ => none

/-- The `replace(/\s+/g, '_')` step: every maximal whitespace run becomes a
single underscore. -/
def collapseWsToUnderscore : List Char → List Char
  | [] => []
  | [c] => if c.isWhitespace then ['_'] else [c]
  | c :: d :: cs =>
    if c.isWhitespace then
      if d.isWhitespace then collapseWsToUnderscore (d :: cs)
      else '_' :: collapseWsToUnderscore (d :: cs)
    else c :: collapseWsToUnderscore (d :: cs)

/-- The dictionary lookup key `key.toLowerCase().replace(/\s+/g, '_')`. -/
def normalizeLookupKey (k : String) : String :=
  String.mk (collapseWsToUnderscore (jsToLower k).data)

/-- The normalized output record (`ExtractedIDData`).  The `confidence`
field of the TypeScript interface is omitted: no `fieldMappings` entry
produces it, so normalization can never populate it. -/
structure ExtractedIDData where
  id : Option String := none
  lastName : Option String := none
  firstName : Option String := none
  middleInitial : Option String := none
  addressStreet : Option String := none
  addressCity : Option String := none
  addressState : Option String := none
  addressZip : Option String := none
  sex : Option String := none
  dob : Option String := none
deriving DecidableEq

/-- The dynamic assignment `(normalized as any)[normalizedKey] = value`
restricted to the canonical names `fieldMappings` can produce. -/
def setField (d : ExtractedIDData) (k v : String) : ExtractedIDData :=
  match k with
  | "id" => { d with id := some v }
  | "lastName" => { d with lastName := some v }
  | "firstName" => { d with firstName := some v }
  | "middleInitial" => { d with middleInitial := some v }
  | "addressStreet" => { d with addressStreet := some v }
  | "addressCity" => { d with addressCity := some v }
  | "addressState" => { d with addressState := some v }
  | "addressZip" => { d with addressZip := some v }
  | "sex" => { d with sex := some v }
  | "dob" => { d with dob := some v }
  | _ => d

/-- The per-field cleanup of lines 176-185 applied to the trimmed value:
uppercase-and-truncate the middle initial, binary M/F normalization for sex,
digits-only 5-character truncation for the ZIP. -/
def cleanValue (nk raw : String) : String :=
  let value := jsTrim raw
  if nk = "middleInitial" then String.mk ((jsToUpper value).data.take 1)
  else if nk = "sex" then
    if jsStartsWith (jsToLower value) "m" then "M" else "F"
  else if nk = "addressZip" then
    String.mk ((value.data.filter Char.isDigit).take 5)
  else value

/-- Embedding of `AnthropicService.normalizeExtractedData` over the key/value
pairs of the parsed JSON object (the OCR fields are string-valued; a falsy -
empty - raw value is skipped by the `normalizedKey && data[key]` guard). -/
def normalizeExtractedData (data : List (String × String)) : ExtractedIDData :=
  data.foldl
    (fun acc kv =>
      match fieldMappings (normalizeLookupKey kv.1) with
      | some nk => if kv.2 = "" then acc else setField acc nk (cleanValue nk kv.2)
      | none => acc)
    {}

/-! ## Specification-side predicates -/

/-- Position `i` holds the first occurrence of `c` in `cs`. -/
def IsFirstOccurrence (cs : List Char) (c : Char) (i : Nat) : Prop :=
  cs.get? i = some c ∧ ∀ k, k < i → cs.get? k ≠ some c

/-- Position `j` holds the last occurrence of `c` in `cs`. -/
def IsLastOccurrence (cs : List Char) (c : Char) (j : Nat) : Prop :=
  cs.get? j = some c ∧ ∀ k, j < k → cs.get? k ≠ some c

/-- What the spec describes for the reply regex: the extracted substring runs
from the first opening brace of the text to the last closing brace (the
leftmost-longest match of the greedy `\x7b[\s\S]*\x7d`). -/
def GreedyBraceMatch (t u : String) : Prop :=
  ∃ i j, i < j ∧ IsFirstOccurrence t.data '{' i ∧ IsLastOccurrence t.data '}' j ∧
    u.data = (t.data.drop i).take (j - i + 1)

end IdOcr

deriving instance DecidableEq for Except

namespace IdOcr

/-! ## Helper lemmas -/

theorem find?_oid_append (db : List StoredRecord) (r : StoredRecord)
    (h : db.all (fun x => x.oid != r.oid) = true) :
    (db ++ [r]).find? (fun x => x.oid == r.oid) = some r := by
  induction db with
  | nil => simp [List.find?]
  | cons a tl ih =>
    rw [List.all_cons, Bool.and_eq_true] at h
    have h1 : (a.oid == r.oid) = false := by
      simpa using bne_iff_ne.mp h.1
    simpa [List.find?_cons, h1] using ih h.2

theorem firstIdxOf_sound (c : Char) :
    ∀ (cs : List Char) (i : Nat), firstIdxOf c cs = some i →
      cs.get? i = some c ∧ ∀ k, k < i → cs.get? k ≠ some c := by
  intro cs
  induction cs with
  | nil => intro i h; simp [firstIdxOf] at h
  | cons x xs ih =>
    intro i h
    by_cases hx : x = c
    · simp [firstIdxOf, hx] at h
      subst h
      exact ⟨by simp [hx], fun k hk => absurd hk (Nat.not_lt_zero k)⟩
    · simp [firstIdxOf, hx, Option.map_eq_some'] at h
      obtain ⟨m, hm, rfl⟩ := h
      obtain ⟨h1, h2⟩ := ih m hm
      refine ⟨by simpa using h1, fun k hk => ?_⟩
      cases k with
      | zero => simpa using hx
      | succ n =>
        rw [List.get?_cons_succ]
        exact h2 n (Nat.lt_of_succ_lt_succ hk)

theorem firstIdxOf_none (c : Char) :
    ∀ cs : List Char, firstIdxOf c cs = none → ∀ k, cs.get? k ≠ some c := by
  intro cs
  induction cs with
  | nil => intro _ k; simp
  | cons x xs ih =>
    intro h k
    by_cases hx : x = c
    · simp [firstIdxOf, hx] at h
    · simp [firstIdxOf, hx] at h
      cases k with
      | zero => simpa using hx
      | succ n => rw [List.get?_cons_succ]; exact ih h n

theorem lastIdxOf_none (c : Char) :
    ∀ cs : List Char, lastIdxOf c cs = none → ∀ k, cs.get? k ≠ some c := by
  intro cs
  induction cs with
  | nil => intro _ k; simp
  | cons x xs ih =>
    intro h k
    rw [lastIdxOf] at h
    cases hxs : lastIdxOf c xs with
    | some m => rw [hxs] at h; exact absurd h (by simp)
    | none =>
      rw [hxs] at h
      have hx : ¬(x = c) := by
        intro e; rw [if_pos e] at h; exact Option.noConfusion h
      cases k with
      | zero => simpa using hx
      | succ n => rw [List.get?_cons_succ]; exact ih hxs n

theorem lastIdxOf_sound (c : Char) :
    ∀ (cs : List Char) (j : Nat), lastIdxOf c cs = some j →
      cs.get? j = some c ∧ ∀ k, j < k → cs.get? k ≠ some c := by
  intro cs
  induction cs with
  | nil => intro j h; simp [lastIdxOf] at h
  | cons x xs ih =>
    intro j h
    rw [lastIdxOf] at h
    cases hxs : lastIdxOf c xs with
    | some m =>
      rw [hxs] at h
      have hj : j = m + 1 := by
        cases h; rfl
      subst hj
      obtain ⟨h1, h2⟩ := ih m hxs
      refine ⟨by simpa using h1, fun k hk => ?_⟩
      cases k with
      | zero => exact absurd hk (Nat.not_lt_zero _)
      | succ n =>
        rw [List.get?_cons_succ]
        exact h2 n (Nat.lt_of_succ_lt_succ hk)
    | none =>
      rw [hxs] at h
      by_cases hx : x = c
      · rw [if_pos hx] at h
        have hj : j = 0 := by cases h; rfl
        subst hj
        refine ⟨by simp [hx], fun k hk => ?_⟩
        cases k with
        | zero => exact absurd hk (Nat.lt_irrefl 0)
        | succ n => rw [List.get?_cons_succ]; exact lastIdxOf_none c xs hxs n
      · rw [if_neg hx] at h
        exact Option.noConfusion h

theorem firstIdxOf_complete {c : Char} {cs : List Char} {i : Nat}
    (h : IsFirstOccurrence cs c i) : firstIdxOf c cs = some i := by
  cases hf : firstIdxOf c cs with
  | none => exact absurd h.1 (firstIdxOf_none c cs hf i)
  | some m =>
    obtain ⟨h1, h2⟩ := firstIdxOf_sound c cs m hf
    rcases Nat.lt_trichotomy i m with hlt | heq | hgt
    · exact absurd h.1 (h2 i hlt)
    · rw [heq]
    · exact absurd h1 (h.2 m hgt)

theorem lastIdxOf_complete {c : Char} {cs : List Char} {j : Nat}
    (h : IsLastOccurrence cs c j) : lastIdxOf c cs = some j := by
  cases hf : lastIdxOf c cs with
  | none => exact absurd h.1 (lastIdxOf_none c cs hf j)
  | some m =>
    obtain ⟨h1, h2⟩ := lastIdxOf_sound c cs m hf
    rcases Nat.lt_trichotomy j m with hlt | heq | hgt
    · exact absurd h1 (h.2 m hlt)
    · rw [heq]
    · exact absurd h.1 (h2 j hgt)

/-! ## Claim C9: the pagination invariant -/

/-- C9: for every database state and every pair of `page`/`limit` query
parameters, the paginated listing reports `hasMore` as `true` exactly when
the (defaulted) page number times the (defaulted) page size is smaller than
the total record count it reports. -/
theorem getAllData_hasMore_iff (db : List StoredRecord)
    (pageQ limitQ : Option Int) :
    ((getAllData db pageQ limitQ).2.hasMore = true) ↔
      (getAllData db pageQ limitQ).2.currentPage * jsOrInt limitQ 10 <
        (getAllData db pageQ limitQ).2.totalRecords := by
  simp [getAllData]

/-! ## Claim C3: upstream OCR failures reach the client as 503 -/

/-- C3: whenever the upstream OCR call fails with HTTP status 401, 429 or
500, the error that ultimately reaches the upload client - after
`extractTextFromImage`'s catch block rewraps it and the Express error
handler post-processes it (the 401 message mentions `Anthropic`, which the
handler rewrites to 503) - carries HTTP status 503 and one of the domain
error messages. -/
theorem upstream_ocr_failure_maps_to_503 (s : Nat) (orig : ApiError)
    (h : s = 401 ∨ s = 429 ∨ s = 500) :
    (ocrFailureClientResponse s orig).1 = 503 ∧
      (ocrFailureClientResponse s orig).2 ∈
        (["OCR service temporarily unavailable. Please try again later.",
          "OCR service rate limit exceeded. Please try again later.",
          "OCR service temporarily unavailable"] : List String) := by
  rcases h with h | h | h <;> subst h
  · exact ⟨rfl, List.mem_cons_self _ _⟩
  · exact ⟨rfl, List.mem_cons_of_mem _ (List.mem_cons_self _ _)⟩
  · exact ⟨rfl, List.mem_cons_of_mem _ (List.mem_cons_of_mem _ (List.mem_cons_self _ _))⟩

/-- Witness for C3 at upstream status 401 (the non-obvious case: the service
itself tags it 500, the error handler turns it into 503). -/
theorem upstream_ocr_failure_maps_to_503_witness :
    (ocrFailureClientResponse 401 (createError "upstream auth failure" 401)).1 = 503 ∧
      (ocrFailureClientResponse 401 (createError "upstream auth failure" 401)).2 ∈
        (["OCR service temporarily unavailable. Please try again later.",
          "OCR service rate limit exceeded. Please try again later.",
          "OCR service temporarily unavailable"] : List String) :=
  upstream_ocr_failure_maps_to_503 401 (createError "upstream auth failure" 401)
    (Or.inl rfl)

/-! ## Claim C6: the sex enum at the save endpoint -/

/-- C6: evaluation of the save pipeline at the failing input
`{lastName: "Smith", firstName: "Jane", sex: "Male"}`.  The body passes the
zod schema (whose enum lists `Male`), but the Mongoose `uppercase: true`
setter rewrites the value to `MALE` before the schema's own
`enum: ['M','F','Male','Female']` validator runs, so the save endpoint
answers 400 instead of persisting the record. -/
theorem sex_male_body_rejected_eval :
    zodValid { lastName := "Smith", firstName := "Jane", sex := some "Male" } = true ∧
      (applySetters { lastName := "Smith", firstName := "Jane", sex := some "Male" }).sex =
        some "MALE" ∧
      saveData [] { lastName := "Smith", firstName := "Jane", sex := some "Male" }
          "0123456789abcdef01234567" 0 =
        .error (createError "Database validation error" 400) :=
  ⟨by decide, by decide, by decide⟩

/-! ## Claim C2: the manually-edited flag at creation -/

/-- C2: evaluation of the save pipeline at the failing input
`{lastName: "Smith", firstName: "Jane"}`.  The controller constructs the
document with `isManuallyEdited: false`, but Mongoose counts every path set
on a new document as modified, so the `pre('save')` hook sees `lastName` and
`firstName` as modified and flips the flag: the freshly created record is
stored with `isManuallyEdited = true`, not `false`. -/
theorem created_record_flag_eval :
    (saveData [] { lastName := "Smith", firstName := "Jane" }
        "0123456789abcdef01234567" 0).toOption.map
      (fun p => p.1.isManuallyEdited) = some true :=
  by decide

/-! ## Claim C10: PDF uploads and the OCR media-type check -/

/-- C10 counterexample: an uploaded file with MIME type `application/pdf`
whose original name is `scan.png`.  The multer allow-list accepts the MIME
type, multer stores the file under the original name's `.png` extension, and
`getMediaType` then resolves `image/png` - so OCR extraction does not fail
with the 400 `Unsupported file format` error but proceeds to the API call. -/
theorem pdf_mime_png_name_passes_media_check :
    fileFilterAccepts "application/pdf" = true ∧
      mediaTypeCheck (multerStoredPath "uploads" "scan.png" "1700000000-123456789") =
        .ok "image/png" :=
  ⟨by decide, by decide⟩

/-- C10 amended: the multer allow-list accepts `application/pdf`, and OCR
extraction fails with the 400 `Unsupported file format` error precisely for
the stored paths whose lowercased final dot-segment - the extension the OCR
client derives - is none of `jpg`/`jpeg`/`png`/`webp`; in particular every
upload stored with a `.pdf` extension. -/
theorem non_image_extension_fails_media_check (p : String)
    (h : lastDotSegment (jsToLower p) ∉ (["jpg", "jpeg", "png", "webp"] : List String)) :
    fileFilterAccepts "application/pdf" = true ∧
      getMediaType p = none ∧
      mediaTypeCheck p = .error (createError "Unsupported file format for OCR" 400) := by
  simp only [List.mem_cons, List.mem_singleton, not_or] at h
  obtain ⟨h1, h2, h3, h4⟩ := h
  have hg : getMediaType p = none := by
    simp [getMediaType, h1, h2, h3, h4]
  exact ⟨by decide, hg, by simp [mediaTypeCheck, hg]⟩

/-- Witness for C10's amended claim at a PDF named `scan.pdf` stored by
multer under the uploads directory. -/
theorem non_image_extension_fails_media_check_witness :
    lastDotSegment (jsToLower (multerStoredPath "uploads" "scan.pdf" "1700000000-123456789")) ∉
        (["jpg", "jpeg", "png", "webp"] : List String) ∧
      (fileFilterAccepts "application/pdf" = true ∧
        getMediaType (multerStoredPath "uploads" "scan.pdf" "1700000000-123456789") = none ∧
        mediaTypeCheck (multerStoredPath "uploads" "scan.pdf" "1700000000-123456789") =
          .error (createError "Unsupported file format for OCR" 400)) :=
  ⟨by decide, non_image_extension_fails_media_check _ (by decide)⟩

/-! ## Claim C4: temporary upload files after the upload handler -/

/-- C4 counterexample: a HEIC upload whose conversion succeeds and whose OCR
call then fails.  The conversion already unlinked the original HEIC file, so
the error-path cleanup - which checks `req.file.path` only - finds nothing to
delete, and the converted JPEG remains on disk after the handler completes. -/
theorem heic_failure_leaves_converted_jpeg :
    uploadAndExtract ["uploads/id-1.heic"] ⟨"uploads/id-1.heic", "image/heic"⟩ true false =
        (false, ["uploads/id-1.jpg"]) ∧
      jpegPathOf "uploads/id-1.heic" ∈
        (uploadAndExtract ["uploads/id-1.heic"] ⟨"uploads/id-1.heic", "image/heic"⟩ true false).2 :=
  ⟨by decide, by decide⟩

/-- C4 amended: after the upload handler completes, the original uploaded
file never remains on disk, and on the success path the converted JPEG (when
the upload was HEIC) is deleted as well; but on the failure path that follows
a successful HEIC conversion the converted JPEG does remain on disk. -/
theorem upload_temp_file_cleanup (fs : List String) (file : UploadedFile)
    (convOk ocrOk : Bool) (hnd : fs.Nodup) (hmem : file.path ∈ fs)
    (hjne : jpegPathOf file.path ≠ file.path)
    (hjmem : jpegPathOf file.path ∉ fs) :
    file.path ∉ (uploadAndExtract fs file convOk ocrOk).2 ∧
      ((uploadAndExtract fs file convOk ocrOk).1 = true →
        jpegPathOf file.path ∉ (uploadAndExtract fs file convOk ocrOk).2) ∧
      (file.mimetype = "image/heic" → convOk = true → ocrOk = false →
        jpegPathOf file.path ∈ (uploadAndExtract fs file convOk ocrOk).2) := by
  have hcont : fs.contains file.path = true := List.elem_iff.mpr hmem
  have hself : file.path ∉ fs.erase file.path := fun hc =>
    ((List.Nodup.mem_erase_iff hnd).mp hc).1 rfl
  have hjp : jpegPathOf file.path ∉ fs.erase file.path := fun hc =>
    hjmem (List.erase_subset _ _ hc)
  by_cases hheic : file.mimetype = "image/heic"
  · cases convOk with
    | false =>
      simp only [uploadAndExtract, convertIfHeic, convertHeicToJpeg, hheic,
        if_pos, if_neg, Bool.false_eq_true, ite_false, ite_true, hcont]
      exact ⟨hself, fun h => absurd h (by simp), fun _ h _ => absurd h (by simp)⟩
    | true =>
      cases ocrOk with
      | true =>
        simp only [uploadAndExtract, convertIfHeic, convertHeicToJpeg, hheic,
          ite_true, List.erase_cons_head]
        exact ⟨hself, fun _ => hjp, fun _ _ h => absurd h (by simp)⟩
      | false =>
        have hcont2 : (jpegPathOf file.path :: fs.erase file.path).contains file.path = false := by
          rw [← Bool.not_eq_true, List.elem_iff]
          intro hc
          rcases List.mem_cons.mp hc with he | he
          · exact hjne he.symm
          · exact hself he
        simp only [uploadAndExtract, convertIfHeic, convertHeicToJpeg, hheic,
          ite_true, hcont2, Bool.false_eq_true, ite_false]
        refine ⟨fun hc => ?_, fun h => absurd h (by simp),
          fun _ _ _ => List.mem_cons_self _ _⟩
        rcases List.mem_cons.mp hc with he | he
        · exact hjne he.symm
        · exact hself he
  · cases ocrOk with
    | true =>
      simp only [uploadAndExtract, convertIfHeic, hheic, ite_false, ite_true]
      exact ⟨hself, fun _ => hjp, fun h => h.elim⟩
    | false =>
      simp only [uploadAndExtract, convertIfHeic, hheic, ite_false,
        Bool.false_eq_true, hcont, ite_true]
      exact ⟨hself, fun h => absurd h (by simp), fun h => h.elim⟩

/-- Witness for C4's amended claim: a singleton file system holding one HEIC
upload, with a successful conversion and a failing OCR call. -/
theorem upload_temp_file_cleanup_witness :
    (["uploads/id-9.heic"] : List String).Nodup ∧
      ("uploads/id-9.heic" : String) ∈ (["uploads/id-9.heic"] : List String) ∧
      (("uploads/id-9.heic" : String) ∉
          (uploadAndExtract ["uploads/id-9.heic"] ⟨"uploads/id-9.heic", "image/heic"⟩ true false).2 ∧
        ((uploadAndExtract ["uploads/id-9.heic"] ⟨"uploads/id-9.heic", "image/heic"⟩ true false).1 = true →
          jpegPathOf "uploads/id-9.heic" ∉
            (uploadAndExtract ["uploads/id-9.heic"] ⟨"uploads/id-9.heic", "image/heic"⟩ true false).2) ∧
        (("uploads/id-9.heic" : String) = "uploads/id-9.heic" → true = true → false = false →
          jpegPathOf "uploads/id-9.heic" ∈
            (uploadAndExtract ["uploads/id-9.heic"] ⟨"uploads/id-9.heic", "image/heic"⟩ true false).2)) :=
  ⟨by decide, by decide, by
    simpa using upload_temp_file_cleanup ["uploads/id-9.heic"]
      ⟨"uploads/id-9.heic", "image/heic"⟩ true false (by decide) (by decide)
      (by decide) (by decide)⟩

/-! ## Claim C7: the OCR normalization dictionary and cleanup -/

/-- C7 counterexample: the input key `zip_code` is not in the fixed
`fieldMappings` dictionary (`zip`, `zipcode`, `postal_code` and `address_zip`
are), so a `zip_code` entry is dropped entirely and the canonical zip field
stays unset. -/
theorem zip_code_key_not_mapped :
    fieldMappings "zip_code" = none ∧
      (normalizeExtractedData [("zip_code", "12345")]).addressZip = none ∧
      normalizeExtractedData [("zip_code", "12345")] = ({} : ExtractedIDData) :=
  ⟨by decide, by decide, by decide⟩

/-- C7 amended: the normalization remaps `surname` to `lastName` and
normalizes `"female"` under `gender` to `"F"` as claimed; but `zip_code` is
not in the dictionary (the zip spellings it does remap include `zipcode`),
and a remapped zip value is reduced to its digits truncated to at most five
characters (fewer when the value holds fewer digits), not always to a
5-character string. -/
theorem normalization_dictionary_and_cleanup (v : String) (hv : v ≠ "") :
    (normalizeExtractedData [("surname", v)]).lastName = some (jsTrim v) ∧
      (normalizeExtractedData [("gender", "female")]).sex = some "F" ∧
      (normalizeExtractedData [("zip_code", v)]).addressZip = none ∧
      (normalizeExtractedData [("zipcode", v)]).addressZip =
        some (String.mk (((jsTrim v).data.filter Char.isDigit).take 5)) ∧
      (((jsTrim v).data.filter Char.isDigit).take 5).length ≤ 5 ∧
      ∀ c ∈ ((jsTrim v).data.filter Char.isDigit).take 5, c.isDigit = true := by
  have e1 : fieldMappings (normalizeLookupKey "surname") = some "lastName" := by decide
  have e2 : fieldMappings (normalizeLookupKey "zip_code") = none := by decide
  have e3 : fieldMappings (normalizeLookupKey "zipcode") = some "addressZip" := by decide
  refine ⟨?_, by decide, ?_, ?_, ?_, ?_⟩
  · simp [normalizeExtractedData, e1, hv, cleanValue, setField]
  · simp [normalizeExtractedData, e2]
  · simp [normalizeExtractedData, e3, hv, cleanValue, setField]
  · rw [List.length_take]
    exact min_le_left _ _
  · intro c hc
    exact (List.mem_filter.mp (List.mem_of_mem_take hc)).2

/-- Witness for C7's amended claim at the value `" 90210-1234 "`. -/
theorem normalization_dictionary_and_cleanup_witness :
    (" 90210-1234 " : String) ≠ "" ∧
      ((normalizeExtractedData [("surname", " 90210-1234 ")]).lastName =
          some (jsTrim " 90210-1234 ") ∧
        (normalizeExtractedData [("gender", "female")]).sex = some "F" ∧
        (normalizeExtractedData [("zip_code", " 90210-1234 ")]).addressZip = none ∧
        (normalizeExtractedData [("zipcode", " 90210-1234 ")]).addressZip =
          some (String.mk (((jsTrim " 90210-1234 ").data.filter Char.isDigit).take 5)) ∧
        (((jsTrim " 90210-1234 ").data.filter Char.isDigit).take 5).length ≤ 5 ∧
        ∀ c ∈ ((jsTrim " 90210-1234 ").data.filter Char.isDigit).take 5, c.isDigit = true) :=
  ⟨by decide, normalization_dictionary_and_cleanup " 90210-1234 " (by decide)⟩

/-! ## Claim C8: the search endpoint -/

/-- The Boolean matcher agrees with the case-insensitive-substring property
over the three searched fields. -/
theorem matchesSearchTerm_iff (t : String) (r : StoredRecord) :
    matchesSearchTerm t r = true ↔
      ((∃ v, r.fields.id = some v ∧
          (jsToLower t).data <:+: (jsToLower v).data) ∨
        (jsToLower t).data <:+: (jsToLower r.fields.lastName).data ∨
        (jsToLower t).data <:+: (jsToLower r.fields.firstName).data) := by
  cases hid : r.fields.id with
  | none => simp [matchesSearchTerm, containsCI, hid]
  | some v => simp [matchesSearchTerm, containsCI, hid, or_assoc]

/-- A record used by the C8 counterexample and witness: its `lastName`
contains the two-character string `" x"` (case-insensitively). -/
def searchDemoRecord : StoredRecord :=
  { oid := "0123456789abcdef01234567"
    fields := { lastName := "Mao x", firstName := "Jane" }
    extractedAt := 1
    lastModified := 1
    isManuallyEdited := false }

/-- C8 counterexample: the query `" x"` has exactly 2 characters and occurs
case-insensitively in a stored record's `lastName`, yet the search endpoint
answers 400 - the controller trims the query before measuring it, so a
2-character query with surrounding whitespace is rejected instead of
returning its matches. -/
theorem two_char_query_rejected :
    (" x" : String).length = 2 ∧
      containsCI " x" searchDemoRecord.fields.lastName = true ∧
      searchData [searchDemoRecord] (some " x") =
        .error (createError "Search term must be at least 2 characters long" 400) :=
  ⟨by decide, by decide, by decide⟩

/-- C8 amended: the search endpoint returns 400 exactly when the *trimmed*
query is shorter than 2 characters; when the trimmed query has at least 2
characters it returns exactly the records in which the trimmed query occurs
as a case-insensitive substring of the `id`, `firstName` or `lastName` field
(the embedding reads the `$regex` filter as literal substring search, i.e.
for metacharacter-free queries). -/
theorem searchData_spec (db : List StoredRecord) (q : String) :
    ((jsTrim q).length < 2 →
      searchData db (some q) =
        .error (createError "Search term must be at least 2 characters long" 400)) ∧
    (2 ≤ (jsTrim q).length →
      searchData db (some q) = .ok (findBySearchTerm db (jsTrim q)) ∧
      ∀ r, r ∈ findBySearchTerm db (jsTrim q) ↔
        r ∈ db ∧
          ((∃ v, r.fields.id = some v ∧
              (jsToLower (jsTrim q)).data <:+: (jsToLower v).data) ∨
            (jsToLower (jsTrim q)).data <:+: (jsToLower r.fields.lastName).data ∨
            (jsToLower (jsTrim q)).data <:+: (jsToLower r.fields.firstName).data)) := by
  constructor
  · intro h
    simp [searchData, h]
  · intro h
    have hne : ¬(q = "") := by
      intro e
      subst e
      exact absurd h (by decide)
    have hlt : ¬((jsTrim q).length < 2) := Nat.not_lt.mpr h
    refine ⟨by simp [searchData, hne, hlt], fun r => ?_⟩
    rw [findBySearchTerm, sortByExtractedAtDesc,
      (List.perm_insertionSort _ _).mem_iff, List.mem_filter,
      matchesSearchTerm_iff]

/-- Witness for C8's amended claim: the short branch at query `"a"` and the
match branch at query `"ma"` over a one-record database. -/
theorem searchData_spec_witness :
    ((jsTrim "a").length < 2 ∧
      searchData [searchDemoRecord] (some "a") =
        .error (createError "Search term must be at least 2 characters long" 400)) ∧
    (2 ≤ (jsTrim "ma").length ∧
      searchData [searchDemoRecord] (some "ma") =
        .ok (findBySearchTerm [searchDemoRecord] (jsTrim "ma"))) :=
  ⟨⟨by decide, (searchData_spec [searchDemoRecord] "a").1 (by decide)⟩,
    ⟨by decide, ((searchData_spec [searchDemoRecord] "ma").2 (by decide)).1⟩⟩

/-! ## Claim C1: the save/get-by-id round trip -/

/-- C1 counterexample: the body `{lastName: "Smith", firstName: "Jane",
middleInitial: "a"}` is accepted by the save endpoint (the round trip
produces a record), but fetching it back yields `middleInitial = "A"` - the
Mongoose `uppercase: true` setter rewrote the stored value - so the fetched
field values are not the submitted ones. -/
theorem roundtrip_not_identity_counterexample :
    (roundTrip [] { lastName := "Smith", firstName := "Jane", middleInitial := some "a" }
        "0123456789abcdef01234567" 0).isSome = true ∧
      roundTrip [] { lastName := "Smith", firstName := "Jane", middleInitial := some "a" }
          "0123456789abcdef01234567" 0 =
        some (fieldsOf { lastName := "Smith", firstName := "Jane", middleInitial := some "A" }) ∧
      roundTrip [] { lastName := "Smith", firstName := "Jane", middleInitial := some "a" }
          "0123456789abcdef01234567" 0 ≠
        some (fieldsOf { lastName := "Smith", firstName := "Jane", middleInitial := some "a" }) :=
  ⟨by decide, by decide, by decide⟩

/-- The save endpoint always persists a freshly created document whose
fields are the sanitized body and whose manually-edited flag the pre-save
hook has set (every set path counts as modified on a new document, and
`lastName` is always set). -/
theorem saveData_accepts_eq (db : List StoredRecord) (body : SaveInput)
    (oid : String) (now : Nat) (hzod : zodValid body = true)
    (hmv : mongooseValid (applySetters body) = true) :
    saveData db body oid now =
      .ok (⟨oid, applySetters body, now, now, true⟩,
        db ++ [⟨oid, applySetters body, now, now, true⟩]) := by
  have hflag : preSaveHook (newIDData body now) now =
      ⟨applySetters body, now, now, true, setPaths body⟩ := by
    have hmemLast : ("lastName" : String) ∈ setPaths body := by
      simp [setPaths]
    have hcontains : (setPaths body).contains "lastName" = true :=
      List.elem_iff.mpr hmemLast
    simp only [preSaveHook, newIDData]
    congr 1
    simp only [List.contains, Bool.or_eq_true, List.elem_iff]
    rw [if_pos (Or.inl (Or.inl (Or.inl hmemLast)))]
  rw [saveData, if_pos hzod, hflag, if_pos hmv]

/-- C1 amended: for every record accepted by the save endpoint whose field
values are already in the sanitized form the Mongoose setters produce
(strings trimmed, middle initial and sex uppercase), saving it and fetching
it by the returned id yields exactly the submitted identity field values.
(In general the fetch returns the sanitized values `applySetters body`, as
the counterexample shows.) -/
theorem save_roundtrip_canonical (db : List StoredRecord) (body : SaveInput)
    (oid : String) (now : Nat)
    (hzod : zodValid body = true)
    (hmv : mongooseValid (applySetters body) = true)
    (hhex : isHex24 oid = true)
    (hfresh : db.all (fun r => r.oid != oid) = true)
    (hcanon : applySetters body = body) :
    roundTrip db body oid now = some (fieldsOf body) := by
  rw [roundTrip, saveData_accepts_eq db body oid now hzod hmv]
  have hfind : (db ++ [(⟨oid, applySetters body, now, now, true⟩ : StoredRecord)]).find?
      (fun r => r.oid == oid) = some ⟨oid, applySetters body, now, now, true⟩ :=
    find?_oid_append db ⟨oid, applySetters body, now, now, true⟩ hfresh
  rw [hcanon] at hfind
  simp only [getDataById, hhex, ite_true, hcanon, hfind]

/-- Witness for C1's amended claim: a fully populated canonical body saved
into an empty database under a fresh 24-hex id. -/
theorem save_roundtrip_canonical_witness :
    zodValid
        { id := some "D1234567", lastName := "Smith", firstName := "Jane",
          middleInitial := some "Q", addressStreet := some "1 Main St",
          addressCity := some "Springfield", addressState := some "IL",
          addressZip := some "62704", sex := some "M", dob := some "1990-01-02",
          confidence := some 1, sourceFileName := some "idcard.jpg" } = true ∧
      roundTrip []
          { id := some "D1234567", lastName := "Smith", firstName := "Jane",
            middleInitial := some "Q", addressStreet := some "1 Main St",
            addressCity := some "Springfield", addressState := some "IL",
            addressZip := some "62704", sex := some "M", dob := some "1990-01-02",
            confidence := some 1, sourceFileName := some "idcard.jpg" }
          "0123456789abcdef01234567" 0 =
        some (fieldsOf
          { id := some "D1234567", lastName := "Smith", firstName := "Jane",
            middleInitial := some "Q", addressStreet := some "1 Main St",
            addressCity := some "Springfield", addressState := some "IL",
            addressZip := some "62704", sex := some "M", dob := some "1990-01-02",
            confidence := some 1, sourceFileName := some "idcard.jpg" }) :=
  ⟨by decide,
    save_roundtrip_canonical []
      { id := some "D1234567", lastName := "Smith", firstName := "Jane",
        middleInitial := some "Q", addressStreet := some "1 Main St",
        addressCity := some "Springfield", addressState := some "IL",
        addressZip := some "62704", sex := some "M", dob := some "1990-01-02",
        confidence := some 1, sourceFileName := some "idcard.jpg" }
      "0123456789abcdef01234567" 0 (by decide) (by decide) (by decide) (by decide)
      (by decide)⟩

/-! ## Claim C5: JSON extraction from the model reply -/

/-- C5: for every reply whose first content block is text, the OCR client
extracts exactly the substring described by the greedy regex - from the
first opening brace to the last closing brace of the text - and parses it;
when no such substring exists it fails with the 500 `Could not parse OCR
response` error, and when the substring is malformed JSON (the parse yields
nothing) it fails with the 500 `Failed to parse OCR JSON response` error. -/
theorem ocr_json_extraction_spec {J : Type} (parseJson : String → Option J)
    (t : String) :
    (∀ u, jsonMatch t = some u ↔ GreedyBraceMatch t u) ∧
      (jsonMatch t = none →
        extractJsonFromReply parseJson (ContentBlock.text t) =
          .error (createError "Could not parse OCR response" 500)) ∧
      (∀ u, jsonMatch t = some u → parseJson u = none →
        extractJsonFromReply parseJson (ContentBlock.text t) =
          .error (createError "Failed to parse OCR JSON response" 500)) ∧
      (∀ u v, jsonMatch t = some u → parseJson u = some v →
        extractJsonFromReply parseJson (ContentBlock.text t) = .ok v) := by
  refine ⟨fun u => ⟨fun h => ?_, fun h => ?_⟩,
    fun h => by simp [extractJsonFromReply, h],
    fun u h1 h2 => by simp [extractJsonFromReply, h1, h2],
    fun u v h1 h2 => by simp [extractJsonFromReply, h1, h2]⟩
  · rw [jsonMatch] at h
    cases hf : firstIdxOf '{' t.data with
    | none => rw [hf] at h; exact absurd h (by simp)
    | some i =>
      cases hl : lastIdxOf '}' t.data with
      | none => rw [hf, hl] at h; exact absurd h (by simp)
      | some j =>
        rw [hf, hl] at h
        dsimp only at h
        by_cases hij : i < j
        · rw [if_pos hij] at h
          refine ⟨i, j, hij, firstIdxOf_sound '{' t.data i hf,
            lastIdxOf_sound '}' t.data j hl, ?_⟩
          cases h
          rfl
        · rw [if_neg hij] at h
          exact absurd h (by simp)
  · obtain ⟨i, j, hij, hfst, hlst, hu⟩ := h
    rw [jsonMatch, firstIdxOf_complete hfst, lastIdxOf_complete hlst]
    dsimp only
    rw [if_pos hij]
    exact congrArg some (String.ext hu.symm)

/-- The parse function used by the C5 witness: recognizes the single JSON
object `\x7b"a": 1\x7d` of the demo reply. -/
def demoParseJson : String → Option Nat :=
  fun s => if s = "\x7b\"a\": 1\x7d" then some 1 else none

/-- Witness for C5 at the reply text `reply \x7b"a": 1\x7d tail`: the greedy
match exists, satisfies the brace specification, and parsing succeeds. -/
theorem ocr_json_extraction_spec_witness :
    jsonMatch "reply \x7b\"a\": 1\x7d tail" = some "\x7b\"a\": 1\x7d" ∧
      GreedyBraceMatch "reply \x7b\"a\": 1\x7d tail" "\x7b\"a\": 1\x7d" ∧
      extractJsonFromReply demoParseJson
        (ContentBlock.text "reply \x7b\"a\": 1\x7d tail") = .ok 1 :=
  ⟨by decide,
    ((ocr_json_extraction_spec demoParseJson "reply \x7b\"a\": 1\x7d tail").1
      "\x7b\"a\": 1\x7d").mp (by decide),
    (ocr_json_extraction_spec demoParseJson "reply \x7b\"a\": 1\x7d tail").2.2.2
      "\x7b\"a\": 1\x7d" 1 (by decide) (by decide)⟩

end IdOcr
